import Mathlib

/-!
Verification of the blocks-request handler of the Pactus sync subsystem
(`sync/handler_blocks_request.go`, `blocksRequestHandler.ParseMessage`).

The handler is embedded shallowly: the synchronizer environment it reads
(peer set, config, state facade, store) is a record `Env`, and the handler
is a pure function from the environment, the request message and the origin
peer id to the list of responses it sends, in order.  A state-threading
variant (`parseMessageS`) makes the frame property provable: every facade
call the Go code performs is read-only, so each is modelled as returning
the environment unchanged.

Parts of the repository that the handler calls but whose sources are not
available here (the message type with `To()`, `prepareBlocks`, the peer
status type, the response constructor) are modelled from the specification;
each such definition carries a doc comment saying so.
-/

namespace PactusSync

/-- Modelled from the spec: peer status is one of `Unknown`, `Connected`,
`Known`, `Banned`, `Disconnected` (`peerset/peer` is not in the sources). -/
inductive Status where
  | unknown
  | connected
  | known
  | banned
  | disconnected
deriving DecidableEq

/-- Modelled from the spec: `status.IsUnknown()`. -/
def Status.isUnknown : Status → Bool
  | .unknown => true
  | _ => false

/-- Modelled from the spec: `status.IsKnown()` (handshake complete). -/
def Status.isKnown : Status → Bool
  | .known => true
  | _ => false

/-- Modelled from the spec: `status.String()`, used inside the
"not handshaked (%s)" rejection reason.  The exact rendering is immaterial
to every claim. -/
def Status.text : Status → String
  | .unknown => "unknown"
  | .connected => "connected"
  | .known => "known"
  | .banned => "banned"
  | .disconnected => "disconnected"

/-- The three configuration fields the handler reads
(`handler.config.NodeNetwork`, `.LatestBlockInterval`, `.BlockPerMessage`). -/
structure Config where
  nodeNetwork : Bool
  latestBlockInterval : Nat
  blockPerMessage : Nat

/-- Modelled from the spec: a certificate exposes its height
(`lastCert.Height()`); no other attribute is read by the handler. -/
structure Certificate where
  height : Nat
deriving DecidableEq

/-- The read-only environment the handler captures from the synchronizer:
peer-set lookup, configuration, the state facade (`LastBlockHeight`,
`LastCertificate`) and the block store (`block_at`, an `Option` per height,
modelled from the spec's state-facade interface). -/
structure Env where
  peerStatus : String → Status
  config : Config
  lastBlockHeight : Nat
  lastCertificate : Certificate
  store : Nat → Option Nat

/-- Modelled from the spec: the response codes of a `BlocksResponse`. -/
inductive ResponseCode where
  | moreBlocks
  | noMoreBlocks
  | synced
  | rejected
deriving DecidableEq

/-- Modelled from the spec: `ResponseCode.String()`, used as the reason of
non-rejected responses.  The exact rendering is immaterial to every claim. -/
def ResponseCode.text : ResponseCode → String
  | .moreBlocks => "more-blocks"
  | .noMoreBlocks => "no-more-blocks"
  | .synced => "synced"
  | .rejected => "rejected"

/-- The inbound `BlocksRequestMessage`: `SessionID`, `From`, `Count`
(all uint32/int in Go, embedded as `Nat`). -/
structure BlocksRequestMessage where
  SessionID : Nat
  From : Nat
  Count : Nat
deriving DecidableEq

/-- Modelled from the spec: `msg.To()` "computes the last requested height",
`From + Count - 1`, in uint32 arithmetic (so `From = Count = 0` wraps to
`2^32 - 1`, exactly as the Go subtraction underflows). -/
def BlocksRequestMessage.To (m : BlocksRequestMessage) : Nat :=
  (m.From + m.Count + 4294967295) % 4294967296

/-- Modelled from the spec: the fields of a `BlocksResponseMessage`, in the
order of the `NewBlocksResponseMessage` constructor arguments. -/
structure BlocksResponseMessage where
  ResponseCode : PactusSync.ResponseCode
  Reason : String
  SessionID : Nat
  Height : Nat
  BlocksData : List Nat
  LastCertificate : Option Certificate
deriving DecidableEq

/-- Modelled from the spec: the `NewBlocksResponseMessage` constructor
(code, reason, session id, height, blocks, certificate). -/
def NewBlocksResponseMessage (code : ResponseCode) (reason : String)
    (sid height : Nat) (blocksData : List Nat) (cert : Option Certificate) :
    BlocksResponseMessage :=
  ⟨code, reason, sid, height, blocksData, cert⟩

/-- Modelled from the spec: `prepareBlocks(h, n)` reads up to `n`
consecutive blocks from the store starting at height `h`, stopping at the
first height the store cannot serve. -/
def prepareBlocks (env : Env) : Nat → Nat → List Nat
  | _, 0 => []
  | h, c + 1 =>
    match env.store h with
    | none => []
    | some b => b :: prepareBlocks env (h + 1) c

/-- `util.Min(BlockPerMessage, count)`: how many blocks one iteration asks
the store for. -/
def blockToRead (env : Env) (count : Nat) : Nat :=
  Nat.min env.config.blockPerMessage count

/-- The chunk of blocks one loop iteration reads:
`prepareBlocks(height, util.Min(BlockPerMessage, count))`. -/
def blocksChunk (env : Env) (height count : Nat) : List Nat :=
  prepareBlocks env height (blockToRead env count)

/-- The `MoreBlocks` response one loop iteration sends. -/
def moreBlocksResponse (sid height : Nat) (blocksData : List Nat) :
    BlocksResponseMessage :=
  NewBlocksResponseMessage ResponseCode.moreBlocks
    (ResponseCode.text ResponseCode.moreBlocks) sid height blocksData none

/-- The terminal `Synced` response: carries the last certificate and that
certificate's height. -/
def syncedResponse (env : Env) (sid : Nat) : BlocksResponseMessage :=
  NewBlocksResponseMessage ResponseCode.synced
    (ResponseCode.text ResponseCode.synced) sid env.lastCertificate.height []
    (some env.lastCertificate)

/-- The terminal `NoMoreBlocks` response. -/
def noMoreBlocksResponse (sid : Nat) : BlocksResponseMessage :=
  NewBlocksResponseMessage ResponseCode.noMoreBlocks
    (ResponseCode.text ResponseCode.noMoreBlocks) sid 0 [] none

/-- The height-window condition on line 47 of the handler:
`ourHeight > LatestBlockInterval && msg.From < ourHeight-LatestBlockInterval`
(the first conjunct guards the uint32 subtraction in the second). -/
def requestHeightRejected (lbi ourHeight reqFrom : Nat) : Prop :=
  lbi < ourHeight ∧ reqFrom < ourHeight - lbi

instance (lbi ourHeight reqFrom : Nat) :
    Decidable (requestHeightRejected lbi ourHeight reqFrom) := by
  unfold requestHeightRejected; infer_instance

/-- uint32 subtraction `a - b` as the Go machine evaluates it (wrapping on
underflow), for `a b < 2^32`. -/
def subU32 (a b : Nat) : Nat :=
  (a + 4294967296 - b) % 4294967296

/-- The height-window condition with its subtraction read as the raw uint32
machine operation instead of exact natural subtraction. -/
def requestHeightRejectedU32 (lbi ourHeight reqFrom : Nat) : Prop :=
  lbi < ourHeight ∧ reqFrom < subU32 ourHeight lbi

/-- The pagination loop of `ParseMessage` (lines 76-94): read a chunk, stop
on an empty read, otherwise emit one `MoreBlocks` response, advance the
height by the chunk length, decrease the remaining count, and stop when the
remaining count reaches zero. -/
def serveLoop (env : Env) (sid height count : Nat) :
    List BlocksResponseMessage :=
  if h0 : blocksChunk env height count = [] then []
  else if h1 : count - (blocksChunk env height count).length = 0 then
    [moreBlocksResponse sid height (blocksChunk env height count)]
  else
    moreBlocksResponse sid height (blocksChunk env height count) ::
      serveLoop env sid (height + (blocksChunk env height count).length)
        (count - (blocksChunk env height count).length)
termination_by count
decreasing_by
  have hlen : 0 < (blocksChunk env height count).length :=
    List.length_pos.mpr h0
  omega

/-- `blocksRequestHandler.ParseMessage`, translated check for check from
`sync/handler_blocks_request.go`: five precondition checks, each failure
answered by a single `Rejected` response; on acceptance the pagination loop
followed by exactly one terminal response (`Synced` when
`msg.To() >= ourHeight`, else `NoMoreBlocks`). -/
def parseMessage (env : Env) (msg : BlocksRequestMessage) (pid : String) :
    List BlocksResponseMessage :=
  if (env.peerStatus pid).isUnknown = true then
    [NewBlocksResponseMessage ResponseCode.rejected
      ("unknown peer (" ++ pid ++ ")") msg.SessionID 0 [] none]
  else if (env.peerStatus pid).isKnown = false then
    [NewBlocksResponseMessage ResponseCode.rejected
      ("not handshaked (" ++ (env.peerStatus pid).text ++ ")")
      msg.SessionID 0 [] none]
  else if env.config.nodeNetwork = false ∧
      requestHeightRejected env.config.latestBlockInterval
        env.lastBlockHeight msg.From then
    [NewBlocksResponseMessage ResponseCode.rejected
      ("the request height is not acceptable: " ++ Nat.repr msg.From)
      msg.SessionID 0 [] none]
  else if env.lastBlockHeight < msg.From then
    [NewBlocksResponseMessage ResponseCode.rejected
      ("don\x27t have requested blocks: " ++ Nat.repr msg.From)
      msg.SessionID 0 [] none]
  else if env.config.latestBlockInterval < msg.Count then
    [NewBlocksResponseMessage ResponseCode.rejected
      ("too many blocks requested: " ++ Nat.repr msg.From ++ "-" ++
        Nat.repr msg.Count)
      msg.SessionID 0 [] none]
  else
    serveLoop env msg.SessionID msg.From msg.Count ++
      (if env.lastBlockHeight ≤ msg.To then [syncedResponse env msg.SessionID]
       else [noMoreBlocksResponse msg.SessionID])

/-- All five precondition checks pass: the request is accepted and served. -/
def Accepted (env : Env) (msg : BlocksRequestMessage) (pid : String) : Prop :=
  (env.peerStatus pid).isUnknown = false ∧
  (env.peerStatus pid).isKnown = true ∧
  ¬(env.config.nodeNetwork = false ∧
      requestHeightRejected env.config.latestBlockInterval
        env.lastBlockHeight msg.From) ∧
  msg.From ≤ env.lastBlockHeight ∧
  msg.Count ≤ env.config.latestBlockInterval

instance (env : Env) (msg : BlocksRequestMessage) (pid : String) :
    Decidable (Accepted env msg pid) := by
  unfold Accepted; infer_instance

/-! ### State-threaded embedding (for the frame property)

Every call `ParseMessage` makes into the synchronizer state is a read:
`peerSet.GetPeerStatus`, `state.LastBlockHeight`, `state.LastCertificate`
and `prepareBlocks` (a store read).  Modelled from the spec, each returns
its value together with the (unchanged) state; threading those results
through the handler shows processing a request leaves the state intact. -/

/-- Modelled from the spec: `peerSet.GetPeerStatus(pid)` is a lookup; it
returns the status and leaves the synchronizer state unchanged. -/
def Env.getPeerStatusS (env : Env) (pid : String) : Status × Env :=
  (env.peerStatus pid, env)

/-- Modelled from the spec: `state.LastBlockHeight()` is a read. -/
def Env.lastBlockHeightS (env : Env) : Nat × Env :=
  (env.lastBlockHeight, env)

/-- Modelled from the spec: `state.LastCertificate()` is a read. -/
def Env.lastCertificateS (env : Env) : Certificate × Env :=
  (env.lastCertificate, env)

/-- Modelled from the spec: `prepareBlocks` only reads the store. -/
def prepareBlocksS (env : Env) (height count : Nat) : List Nat × Env :=
  (prepareBlocks env height count, env)

/-- The pagination loop with the synchronizer state threaded through each
facade call. -/
def serveLoopS (env : Env) (sid height count : Nat) :
    List BlocksResponseMessage × Env :=
  match prepareBlocksS env height (blockToRead env count) with
  | (bs, env1) =>
    if h0 : bs = [] then ([], env1)
    else if h1 : count - bs.length = 0 then
      ([moreBlocksResponse sid height bs], env1)
    else
      match serveLoopS env1 sid (height + bs.length) (count - bs.length) with
      | (rest, env2) => (moreBlocksResponse sid height bs :: rest, env2)
termination_by count
decreasing_by
  have hlen : 0 < bs.length := List.length_pos.mpr h0
  omega

/-- `ParseMessage` with the synchronizer state threaded through each facade
call; its second component is the state after handling the request. -/
def parseMessageS (env : Env) (msg : BlocksRequestMessage) (pid : String) :
    List BlocksResponseMessage × Env :=
  match Env.getPeerStatusS env pid with
  | (status, env1) =>
    if status.isUnknown = true then
      ([NewBlocksResponseMessage ResponseCode.rejected
          ("unknown peer (" ++ pid ++ ")") msg.SessionID 0 [] none], env1)
    else if status.isKnown = false then
      ([NewBlocksResponseMessage ResponseCode.rejected
          ("not handshaked (" ++ status.text ++ ")")
          msg.SessionID 0 [] none], env1)
    else
      match Env.lastBlockHeightS env1 with
      | (ourHeight, env2) =>
        if env2.config.nodeNetwork = false ∧
            requestHeightRejected env2.config.latestBlockInterval ourHeight
              msg.From then
          ([NewBlocksResponseMessage ResponseCode.rejected
              ("the request height is not acceptable: " ++ Nat.repr msg.From)
              msg.SessionID 0 [] none], env2)
        else if ourHeight < msg.From then
          ([NewBlocksResponseMessage ResponseCode.rejected
              ("don\x27t have requested blocks: " ++ Nat.repr msg.From)
              msg.SessionID 0 [] none], env2)
        else if env2.config.latestBlockInterval < msg.Count then
          ([NewBlocksResponseMessage ResponseCode.rejected
              ("too many blocks requested: " ++ Nat.repr msg.From ++ "-" ++
                Nat.repr msg.Count)
              msg.SessionID 0 [] none], env2)
        else
          match serveLoopS env2 msg.SessionID msg.From msg.Count with
          | (more, env3) =>
            if ourHeight ≤ msg.To then
              match Env.lastCertificateS env3 with
              | (lastCert, env4) =>
                (more ++ [NewBlocksResponseMessage ResponseCode.synced
                    (ResponseCode.text ResponseCode.synced) msg.SessionID
                    lastCert.height [] (some lastCert)], env4)
            else
              (more ++ [noMoreBlocksResponse msg.SessionID], env3)

/-! ### Substring test on strings -/

/-- Whether `needle` occurs as a contiguous run inside `hay`
(on the underlying character lists). -/
def hasSub (needle : List Char) : List Char → Bool
  | [] => needle.isEmpty
  | c :: rest => needle.isPrefixOf (c :: rest) || hasSub needle rest

/-- Whether the string `needle` occurs contiguously inside `hay`. -/
def containsSubstr (needle hay : String) : Bool :=
  hasSub needle.data hay.data

/-- Spec-side description of the five precondition checks, in the spec's
order, each paired with the rejection the code sends for it: the value is
`some r` exactly when some check fails and `r` is the response answering
the first failing one. -/
def expectedReject (env : Env) (msg : BlocksRequestMessage) (pid : String) :
    Option BlocksResponseMessage :=
  if (env.peerStatus pid).isUnknown = true then
    some (NewBlocksResponseMessage ResponseCode.rejected
      ("unknown peer (" ++ pid ++ ")") msg.SessionID 0 [] none)
  else if (env.peerStatus pid).isKnown = false then
    some (NewBlocksResponseMessage ResponseCode.rejected
      ("not handshaked (" ++ (env.peerStatus pid).text ++ ")")
      msg.SessionID 0 [] none)
  else if env.config.nodeNetwork = false ∧
      requestHeightRejected env.config.latestBlockInterval
        env.lastBlockHeight msg.From then
    some (NewBlocksResponseMessage ResponseCode.rejected
      ("the request height is not acceptable: " ++ Nat.repr msg.From)
      msg.SessionID 0 [] none)
  else if env.lastBlockHeight < msg.From then
    some (NewBlocksResponseMessage ResponseCode.rejected
      ("don\x27t have requested blocks: " ++ Nat.repr msg.From)
      msg.SessionID 0 [] none)
  else if env.config.latestBlockInterval < msg.Count then
    some (NewBlocksResponseMessage ResponseCode.rejected
      ("too many blocks requested: " ++ Nat.repr msg.From ++ "-" ++
        Nat.repr msg.Count)
      msg.SessionID 0 [] none)
  else
    none

/-- The `MoreBlocks` prefix of the handler's output: everything before the
terminal response. -/
def moreBlocksPart (env : Env) (msg : BlocksRequestMessage) (pid : String) :
    List BlocksResponseMessage :=
  (parseMessage env msg pid).dropLast

/-! ### Concrete environments for witnesses and counterexamples -/

/-- A peer set in which every peer is still `Unknown`. -/
def envUnknownPeer : Env :=
  ⟨fun _ => Status.unknown, ⟨true, 720, 10⟩, 0, ⟨0⟩, fun _ => none⟩

/-- A zero request (session 1). -/
def msgZero : BlocksRequestMessage := ⟨1, 0, 0⟩

/-- A non-archival node at height 1000 with a recent window of 10 blocks;
every peer `Known`. -/
def envRejectDemo : Env :=
  ⟨fun _ => Status.known, ⟨false, 10, 10⟩, 1000, ⟨1000⟩, fun _ => none⟩

/-- A request for height 5, far below the recent window (session 7). -/
def msgLowFrom : BlocksRequestMessage := ⟨7, 5, 1⟩

/-- An archival node at height 5 whose store serves exactly heights 1..5
(block data at height `h` is `h`); every peer `Known`. -/
def envTip5 : Env :=
  ⟨fun _ => Status.known, ⟨true, 720, 10⟩, 5, ⟨5⟩,
    fun h => if 1 ≤ h ∧ h ≤ 5 then some h else none⟩

/-- An archival node at height 0 with an empty store; every peer `Known`. -/
def envEmptyChain : Env :=
  ⟨fun _ => Status.known, ⟨true, 720, 10⟩, 0, ⟨0⟩, fun _ => none⟩

/-- An archival node at height 1 serving only height 1; every peer
`Known`. -/
def envHeight1 : Env :=
  ⟨fun _ => Status.known, ⟨true, 720, 10⟩, 1, ⟨1⟩,
    fun h => if h = 1 then some 11 else none⟩

/-- Total length of block data across a response list. -/
def sumLens (l : List BlocksResponseMessage) : Nat :=
  (l.map fun r => r.BlocksData.length).sum

@[simp]
lemma sumLens_nil : sumLens [] = 0 := rfl

@[simp]
lemma sumLens_cons (r : BlocksResponseMessage) (l : List BlocksResponseMessage) :
    sumLens (r :: l) = r.BlocksData.length + sumLens l := by
  simp [sumLens]

/-! ### Helper lemmas -/

@[simp]
lemma moreBlocksResponse_code (sid h : Nat) (bs : List Nat) :
    (moreBlocksResponse sid h bs).ResponseCode = ResponseCode.moreBlocks := rfl

@[simp]
lemma moreBlocksResponse_sid (sid h : Nat) (bs : List Nat) :
    (moreBlocksResponse sid h bs).SessionID = sid := rfl

@[simp]
lemma moreBlocksResponse_height (sid h : Nat) (bs : List Nat) :
    (moreBlocksResponse sid h bs).Height = h := rfl

@[simp]
lemma moreBlocksResponse_blocks (sid h : Nat) (bs : List Nat) :
    (moreBlocksResponse sid h bs).BlocksData = bs := rfl

@[simp]
lemma moreBlocksResponse_cert (sid h : Nat) (bs : List Nat) :
    (moreBlocksResponse sid h bs).LastCertificate = none := rfl

lemma serveLoop_eq_nil (env : Env) (sid : Nat) {h c : Nat}
    (h0 : blocksChunk env h c = []) : serveLoop env sid h c = [] := by
  rw [serveLoop, dif_pos h0]

lemma serveLoop_eq_single (env : Env) (sid : Nat) {h c : Nat}
    (h0 : blocksChunk env h c ≠ [])
    (h1 : c - (blocksChunk env h c).length = 0) :
    serveLoop env sid h c = [moreBlocksResponse sid h (blocksChunk env h c)] := by
  rw [serveLoop, dif_neg h0, dif_pos h1]

lemma serveLoop_eq_cons (env : Env) (sid : Nat) {h c : Nat}
    (h0 : blocksChunk env h c ≠ [])
    (h1 : c - (blocksChunk env h c).length ≠ 0) :
    serveLoop env sid h c =
      moreBlocksResponse sid h (blocksChunk env h c) ::
        serveLoop env sid (h + (blocksChunk env h c).length)
          (c - (blocksChunk env h c).length) := by
  rw [serveLoop, dif_neg h0, dif_neg h1]

lemma prepareBlocks_length_le (env : Env) :
    ∀ c h, (prepareBlocks env h c).length ≤ c := by
  intro c
  induction c with
  | zero => intro h; simp [prepareBlocks]
  | succ n ihn =>
    intro h
    unfold prepareBlocks
    cases henv : env.store h with
    | none => simp
    | some b => simpa using ihn (h + 1)

lemma blocksChunk_length_le (env : Env) (h c : Nat) :
    (blocksChunk env h c).length ≤ Nat.min env.config.blockPerMessage c := by
  simpa [blocksChunk, blockToRead] using
    prepareBlocks_length_le env (blockToRead env c) h

lemma blocksChunk_length_le_count (env : Env) (h c : Nat) :
    (blocksChunk env h c).length ≤ c :=
  le_trans (blocksChunk_length_le env h c) (Nat.min_le_right _ _)

/-- Every response the pagination loop emits is a `MoreBlocks` response of
the loop's session id carrying a nonempty block list. -/
lemma serveLoop_mem_shape (env : Env) (sid : Nat) :
    ∀ c h r, r ∈ serveLoop env sid h c →
      ∃ hh bs, bs ≠ [] ∧ r = moreBlocksResponse sid hh bs := by
  intro c
  induction c using Nat.strong_induction_on with
  | _ c ih =>
    intro h r hr
    rw [serveLoop] at hr
    split at hr
    · simp at hr
    · next h0 =>
      split at hr
      · next h1 =>
        simp at hr
        exact ⟨h, blocksChunk env h c, h0, hr⟩
      · next h1 =>
        rcases List.mem_cons.mp hr with h2 | h2
        · exact ⟨h, blocksChunk env h c, h0, h2⟩
        · have hlen : 0 < (blocksChunk env h c).length := List.length_pos.mpr h0
          exact ih _ (by omega) _ _ h2

/-- The pagination invariant: every emitted chunk starts where the previous
one ended, chunk sizes respect `min(BlockPerMessage, remaining)`, the total
never exceeds the requested count, and the loop only stops on an exhausted
count or an empty read. -/
lemma serveLoop_pagination_aux (env : Env) (sid : Nat) :
    ∀ c h,
      (∀ i (hi : i < (serveLoop env sid h c).length),
          ((serveLoop env sid h c).get ⟨i, hi⟩).Height =
            h + sumLens ((serveLoop env sid h c).take i) ∧
          ((serveLoop env sid h c).get ⟨i, hi⟩).BlocksData.length ≤
            Nat.min env.config.blockPerMessage
              (c - sumLens ((serveLoop env sid h c).take i))) ∧
      sumLens (serveLoop env sid h c) ≤ c ∧
      (c - sumLens (serveLoop env sid h c) = 0 ∨
        blocksChunk env (h + sumLens (serveLoop env sid h c))
          (c - sumLens (serveLoop env sid h c)) = []) := by
  intro c
  induction c using Nat.strong_induction_on with
  | _ c ih =>
    intro h
    by_cases h0 : blocksChunk env h c = []
    · rw [serveLoop_eq_nil env sid h0]
      refine ⟨?_, ?_, ?_⟩
      · intro i hi; simp at hi
      · simp
      · right; simpa using h0
    · have hchunk := blocksChunk_length_le env h c
      have hchunkc := blocksChunk_length_le_count env h c
      by_cases h1 : c - (blocksChunk env h c).length = 0
      · rw [serveLoop_eq_single env sid h0 h1]
        refine ⟨?_, ?_, ?_⟩
        · intro i hi
          match i with
          | 0 =>
            constructor
            · simp
            · simpa using hchunk
          | Nat.succ j => simp at hi
        · simpa using hchunkc
        · left; simpa using h1
      · rw [serveLoop_eq_cons env sid h0 h1]
        have hlen : 0 < (blocksChunk env h c).length := List.length_pos.mpr h0
        obtain ⟨ihGet, ihSum, ihStop⟩ := ih (c - (blocksChunk env h c).length)
          (by omega) (h + (blocksChunk env h c).length)
        refine ⟨?_, ?_, ?_⟩
        · intro i hi
          match i with
          | 0 =>
            constructor
            · simp
            · simpa using hchunk
          | Nat.succ j =>
            have hj : j < (serveLoop env sid (h + (blocksChunk env h c).length)
                (c - (blocksChunk env h c).length)).length := by
              simpa using hi
            obtain ⟨g1, g2⟩ := ihGet j hj
            constructor
            · simp only [List.get_cons_succ, List.take_succ_cons, sumLens_cons,
                moreBlocksResponse_blocks]
              rw [g1]
              omega
            · simp only [List.get_cons_succ, List.take_succ_cons, sumLens_cons,
                moreBlocksResponse_blocks]
              have heq : c - ((blocksChunk env h c).length +
                  sumLens ((serveLoop env sid (h + (blocksChunk env h c).length)
                    (c - (blocksChunk env h c).length)).take j)) =
                  c - (blocksChunk env h c).length -
                    sumLens ((serveLoop env sid (h + (blocksChunk env h c).length)
                      (c - (blocksChunk env h c).length)).take j) := by
                omega
              rw [heq]
              exact g2
        · simp only [sumLens_cons, moreBlocksResponse_blocks]
          omega
        · rcases ihStop with hstop | hstop
          · left
            simp only [sumLens_cons, moreBlocksResponse_blocks]
            omega
          · right
            simp only [sumLens_cons, moreBlocksResponse_blocks]
            have e1 : c - ((blocksChunk env h c).length +
                sumLens (serveLoop env sid (h + (blocksChunk env h c).length)
                  (c - (blocksChunk env h c).length))) =
                c - (blocksChunk env h c).length -
                  sumLens (serveLoop env sid (h + (blocksChunk env h c).length)
                    (c - (blocksChunk env h c).length)) := by
              omega
            have e2 : h + ((blocksChunk env h c).length +
                sumLens (serveLoop env sid (h + (blocksChunk env h c).length)
                  (c - (blocksChunk env h c).length))) =
                h + (blocksChunk env h c).length +
                  sumLens (serveLoop env sid (h + (blocksChunk env h c).length)
                    (c - (blocksChunk env h c).length)) := by
              omega
            rw [e1, e2]
            exact hstop

/-- On an accepted request the handler runs the pagination loop and then
sends exactly one terminal response. -/
lemma parseMessage_accepted (env : Env) (msg : BlocksRequestMessage)
    (pid : String) (hacc : Accepted env msg pid) :
    parseMessage env msg pid =
      serveLoop env msg.SessionID msg.From msg.Count ++
        (if env.lastBlockHeight ≤ msg.To then [syncedResponse env msg.SessionID]
         else [noMoreBlocksResponse msg.SessionID]) := by
  obtain ⟨h1, h2, h3, h4, h5⟩ := hacc
  unfold parseMessage
  rw [if_neg (by simp [h1]), if_neg (by simp [h2]), if_neg h3,
    if_neg (by omega), if_neg (by omega)]

/-- The state-threaded loop returns the same responses as the pure loop and
leaves the synchronizer state unchanged. -/
lemma serveLoopS_eq (sid : Nat) :
    ∀ c (env : Env) h, serveLoopS env sid h c = (serveLoop env sid h c, env) := by
  intro c
  induction c using Nat.strong_induction_on with
  | _ c ih =>
    intro env h
    rw [serveLoopS, serveLoop]
    simp only [prepareBlocksS, blocksChunk]
    by_cases h0 : prepareBlocks env h (blockToRead env c) = []
    · simp [h0]
    · by_cases h1 : c - (prepareBlocks env h (blockToRead env c)).length = 0
      · simp [h0, h1]
      · have hlen : 0 < (prepareBlocks env h (blockToRead env c)).length :=
          List.length_pos.mpr h0
        rw [dif_neg h0, dif_neg h1, dif_neg h0, dif_neg h1,
          ih (c - (prepareBlocks env h (blockToRead env c)).length) (by omega)
            env (h + (prepareBlocks env h (blockToRead env c)).length)]

/-- The state-threaded handler returns the same responses as the pure
handler and leaves the synchronizer state unchanged. -/
lemma parseMessageS_eq (env : Env) (msg : BlocksRequestMessage) (pid : String) :
    parseMessageS env msg pid = (parseMessage env msg pid, env) := by
  rw [parseMessageS, parseMessage]
  simp only [Env.getPeerStatusS, Env.lastBlockHeightS, Env.lastCertificateS]
  by_cases c1 : (env.peerStatus pid).isUnknown = true
  · simp [c1]
  · by_cases c2 : (env.peerStatus pid).isKnown = false
    · simp [c1, c2]
    · by_cases c3 : env.config.nodeNetwork = false ∧
          requestHeightRejected env.config.latestBlockInterval
            env.lastBlockHeight msg.From
      · simp [c1, c2, c3]
      · by_cases c4 : env.lastBlockHeight < msg.From
        · simp [c1, c2, c3, c4]
        · by_cases c5 : env.config.latestBlockInterval < msg.Count
          · simp [c1, c2, c3, c4, c5]
          · rw [if_neg c1, if_neg c2, if_neg c3, if_neg c4, if_neg c5,
              if_neg c1, if_neg c2, if_neg c3, if_neg c4, if_neg c5,
              serveLoopS_eq]
            by_cases c6 : env.lastBlockHeight ≤ msg.To
            · simp [c6, syncedResponse, NewBlocksResponseMessage]
            · simp [c6]

/-! ### String helpers -/

lemma isPrefixOf_append (l₂ : List Char) :
    ∀ (n l₁ : List Char), n.isPrefixOf l₁ = true →
      n.isPrefixOf (l₁ ++ l₂) = true := by
  intro n
  induction n with
  | nil => intro l₁ h; cases l₁ <;> simp [List.isPrefixOf]
  | cons a as ihn =>
    intro l₁ h
    cases l₁ with
    | nil => simp [List.isPrefixOf] at h
    | cons b bs =>
      simp only [List.cons_append, List.isPrefixOf] at h ⊢
      simp only [Bool.and_eq_true] at h ⊢
      exact ⟨h.1, ihn bs h.2⟩

lemma hasSub_append (n l₂ : List Char) :
    ∀ l₁, hasSub n l₁ = true → hasSub n (l₁ ++ l₂) = true := by
  intro l₁
  induction l₁ with
  | nil =>
    intro h
    simp only [hasSub, List.isEmpty_iff] at h
    subst h
    cases l₂ <;> simp [hasSub, List.isPrefixOf]
  | cons c rest ihr =>
    intro h
    simp only [hasSub, Bool.or_eq_true] at h ⊢
    rcases h with h | h
    · exact Or.inl (isPrefixOf_append l₂ n (c :: rest) h)
    · exact Or.inr (ihr h)

/-- A substring of `a` is a substring of `a ++ b`. -/
lemma containsSubstr_append (n a b : String)
    (h : containsSubstr n a = true) : containsSubstr n (a ++ b) = true := by
  unfold containsSubstr at h ⊢
  rw [String.data_append]
  exact hasSub_append n.data b.data a.data h

/-- Two strings whose second characters differ are distinct. -/
lemma string_ne_of_data1 (s t : String) (h : s.data[1]? ≠ t.data[1]?) :
    s ≠ t := fun he => h (by rw [he])

/-- Reading the second character of `a ++ b` inside `a`. -/
lemma data1_append (a b : String) (h : 1 < a.data.length) :
    (a ++ b).data[1]? = a.data[1]? := by
  rw [String.data_append]
  exact List.getElem?_append_left h

lemma data1_append_left (a b : String) (c : Char) (hl : 1 < a.data.length)
    (h : a.data[1]? = some c) : (a ++ b).data[1]? = some c := by
  rw [data1_append a b hl]
  exact h

lemma data_length_le_append (a b : String) :
    a.data.length ≤ (a ++ b).data.length := by
  rw [String.data_append]
  simp

lemma prepareBlocks_store_none (env : Env) (h : Nat)
    (hn : env.store h = none) : ∀ c, prepareBlocks env h c = [] := by
  intro c
  cases c with
  | zero => rfl
  | succ n => unfold prepareBlocks; rw [hn]

/-! ### Claims -/

/-- C1 (amended): For every inbound BlocksRequest, the handler evaluates the
five precondition checks in the spec's order (origin status not Unknown;
origin status Known; non-archival height window; from ≤ local height;
count ≤ LatestBlockInterval), and the first check that fails causes exactly
one Rejected response carrying the code's corresponding reason string
("unknown peer (<pid>)", "not handshaked (<status>)", "the request height is
not acceptable: <from>", "don't have requested blocks: <from>", "too many
blocks requested: <from>-<count>") and no block data and no further
responses. -/
theorem blocksRequest_firstFailing_reject (env : Env)
    (msg : BlocksRequestMessage) (pid : String) (r : BlocksResponseMessage)
    (h : expectedReject env msg pid = some r) :
    parseMessage env msg pid = [r] ∧
    r.ResponseCode = ResponseCode.rejected ∧ r.BlocksData = [] := by
  unfold expectedReject at h
  unfold parseMessage
  by_cases c1 : (env.peerStatus pid).isUnknown = true
  · rw [if_pos c1] at h ⊢
    injection h with h
    subst h
    exact ⟨rfl, rfl, rfl⟩
  · rw [if_neg c1] at h ⊢
    by_cases c2 : (env.peerStatus pid).isKnown = false
    · rw [if_pos c2] at h ⊢
      injection h with h
      subst h
      exact ⟨rfl, rfl, rfl⟩
    · rw [if_neg c2] at h ⊢
      by_cases c3 : env.config.nodeNetwork = false ∧
          requestHeightRejected env.config.latestBlockInterval
            env.lastBlockHeight msg.From
      · rw [if_pos c3] at h ⊢
        injection h with h
        subst h
        exact ⟨rfl, rfl, rfl⟩
      · rw [if_neg c3] at h ⊢
        by_cases c4 : env.lastBlockHeight < msg.From
        · rw [if_pos c4] at h ⊢
          injection h with h
          subst h
          exact ⟨rfl, rfl, rfl⟩
        · rw [if_neg c4] at h ⊢
          by_cases c5 : env.config.latestBlockInterval < msg.Count
          · rw [if_pos c5] at h ⊢
            injection h with h
            subst h
            exact ⟨rfl, rfl, rfl⟩
          · rw [if_neg c5] at h
            exact absurd h (by simp)

/-- Witness for C1: an unknown peer's request is answered by exactly the
"unknown peer" rejection. -/
theorem blocksRequest_firstFailing_reject_witness :
    expectedReject envUnknownPeer msgZero "px" =
      some (NewBlocksResponseMessage ResponseCode.rejected
        "unknown peer (px)" 1 0 [] none) ∧
    (parseMessage envUnknownPeer msgZero "px" =
        [NewBlocksResponseMessage ResponseCode.rejected
          "unknown peer (px)" 1 0 [] none] ∧
      (NewBlocksResponseMessage ResponseCode.rejected
        "unknown peer (px)" 1 0 [] none).ResponseCode = ResponseCode.rejected ∧
      (NewBlocksResponseMessage ResponseCode.rejected
        "unknown peer (px)" 1 0 [] none).BlocksData = []) :=
  ⟨by decide, blocksRequest_firstFailing_reject envUnknownPeer msgZero "px" _
    (by decide)⟩

/-- C1 counterexample: the height-window rejection's reason is
"the request height is not acceptable: <from>", which does not carry the
claimed reason string "request height not acceptable". -/
theorem blocksRequest_reject_reason_cex :
    parseMessage envRejectDemo msgLowFrom "peer1" =
      [NewBlocksResponseMessage ResponseCode.rejected
        "the request height is not acceptable: 5" 7 0 [] none] ∧
    containsSubstr "request height not acceptable"
      "the request height is not acceptable: 5" = false :=
  ⟨by decide, by decide⟩

/-- C2: For every accepted BlocksRequest, the pagination loop emits a
sequence of MoreBlocks responses in which the i-th response's starting
height equals the requested from plus the blocks already sent (so the first
starts at from and each subsequent one at the previous start plus the
previous block count), each response carries at most
min(BlockPerMessage, remaining) blocks, the total never exceeds the
requested count, and the loop stops only on an exhausted count or an empty
read. -/
theorem blocksRequest_pagination (env : Env) (msg : BlocksRequestMessage)
    (pid : String) (hacc : Accepted env msg pid) :
    (∀ i (hi : i < (moreBlocksPart env msg pid).length),
        ((moreBlocksPart env msg pid).get ⟨i, hi⟩).ResponseCode =
          ResponseCode.moreBlocks ∧
        ((moreBlocksPart env msg pid).get ⟨i, hi⟩).Height =
          msg.From + sumLens ((moreBlocksPart env msg pid).take i) ∧
        ((moreBlocksPart env msg pid).get ⟨i, hi⟩).BlocksData.length ≤
          Nat.min env.config.blockPerMessage
            (msg.Count - sumLens ((moreBlocksPart env msg pid).take i))) ∧
    sumLens (moreBlocksPart env msg pid) ≤ msg.Count ∧
    (msg.Count - sumLens (moreBlocksPart env msg pid) = 0 ∨
      blocksChunk env (msg.From + sumLens (moreBlocksPart env msg pid))
        (msg.Count - sumLens (moreBlocksPart env msg pid)) = []) := by
  have hmp : moreBlocksPart env msg pid =
      serveLoop env msg.SessionID msg.From msg.Count := by
    unfold moreBlocksPart
    rw [parseMessage_accepted env msg pid hacc]
    by_cases c6 : env.lastBlockHeight ≤ msg.To <;>
      simp [c6, List.dropLast_concat]
  rw [hmp]
  obtain ⟨hGet, hSum, hStop⟩ :=
    serveLoop_pagination_aux env msg.SessionID msg.Count msg.From
  refine ⟨?_, hSum, hStop⟩
  intro i hi
  obtain ⟨g1, g2⟩ := hGet i hi
  obtain ⟨hh, bs, hbs, hr⟩ := serveLoop_mem_shape env msg.SessionID msg.Count
    msg.From _
    (List.get_mem (serveLoop env msg.SessionID msg.From msg.Count) i hi)
  exact ⟨by rw [hr]; rfl, g1, g2⟩

/-- Witness for C2 at a request for heights 1..3 on a node at height 5:
the theorem applies and in particular the loop sends at most 3 blocks. -/
theorem blocksRequest_pagination_witness :
    Accepted envTip5 ⟨9, 1, 3⟩ "p" ∧
    sumLens (moreBlocksPart envTip5 ⟨9, 1, 3⟩ "p") ≤
      (⟨9, 1, 3⟩ : BlocksRequestMessage).Count :=
  ⟨by decide, (blocksRequest_pagination envTip5 ⟨9, 1, 3⟩ "p" (by decide)).2.1⟩

lemma invariants_of_rejected (reason : String) (sid : Nat)
    (r : BlocksResponseMessage)
    (hr : r = NewBlocksResponseMessage ResponseCode.rejected reason sid
      0 [] none) :
    (r.ResponseCode = ResponseCode.moreBlocks → r.BlocksData ≠ []) ∧
    (r.ResponseCode = ResponseCode.synced →
      ∃ cert, r.LastCertificate = some cert ∧ cert.height = r.Height) := by
  subst hr
  constructor <;> intro hc <;> simp [NewBlocksResponseMessage] at hc

/-- C3: For every accepted BlocksRequest, after the pagination loop the
handler emits exactly one terminal response: the Synced response carrying
the node's last certificate and that certificate's height if and only if
msg.To() ≥ the node's last block height, and otherwise a NoMoreBlocks
response; a Synced response is never followed by a NoMoreBlocks response
for the same request. -/
theorem blocksRequest_terminal (env : Env) (msg : BlocksRequestMessage)
    (pid : String) (hacc : Accepted env msg pid) :
    ∃ pre last, parseMessage env msg pid = pre ++ [last] ∧
      (∀ r ∈ pre, r.ResponseCode = ResponseCode.moreBlocks) ∧
      (env.lastBlockHeight ≤ msg.To → last = syncedResponse env msg.SessionID) ∧
      (msg.To < env.lastBlockHeight → last = noMoreBlocksResponse msg.SessionID) ∧
      last.ResponseCode ≠ ResponseCode.moreBlocks := by
  rw [parseMessage_accepted env msg pid hacc]
  have hpre : ∀ r ∈ serveLoop env msg.SessionID msg.From msg.Count,
      r.ResponseCode = ResponseCode.moreBlocks := by
    intro r hr
    obtain ⟨hh, bs, hbs, hrr⟩ := serveLoop_mem_shape env msg.SessionID
      msg.Count msg.From r hr
    rw [hrr]
    rfl
  by_cases c6 : env.lastBlockHeight ≤ msg.To
  · exact ⟨serveLoop env msg.SessionID msg.From msg.Count,
      syncedResponse env msg.SessionID, by rw [if_pos c6], hpre,
      fun _ => rfl, fun hlt => absurd c6 (by omega), by
        simp [syncedResponse, NewBlocksResponseMessage]⟩
  · exact ⟨serveLoop env msg.SessionID msg.From msg.Count,
      noMoreBlocksResponse msg.SessionID, by rw [if_neg c6], hpre,
      fun hle => absurd hle c6, fun _ => rfl, by
        simp [noMoreBlocksResponse, NewBlocksResponseMessage]⟩

/-- Witness for C3 at a request for heights 1..3 on a node at height 5. -/
theorem blocksRequest_terminal_witness :
    Accepted envTip5 ⟨9, 1, 3⟩ "q" ∧
    (∃ pre last, parseMessage envTip5 ⟨9, 1, 3⟩ "q" = pre ++ [last] ∧
      (∀ r ∈ pre, r.ResponseCode = ResponseCode.moreBlocks) ∧
      (envTip5.lastBlockHeight ≤ (⟨9, 1, 3⟩ : BlocksRequestMessage).To →
        last = syncedResponse envTip5 9) ∧
      ((⟨9, 1, 3⟩ : BlocksRequestMessage).To < envTip5.lastBlockHeight →
        last = noMoreBlocksResponse 9) ∧
      last.ResponseCode ≠ ResponseCode.moreBlocks) :=
  ⟨by decide, blocksRequest_terminal envTip5 ⟨9, 1, 3⟩ "q" (by decide)⟩

/-- C4: Every BlocksResponse with code MoreBlocks emitted by the
blocks-request handler carries at least one block, and every BlocksResponse
with code Synced carries a certificate whose height equals the response's
reported starting height. -/
theorem blocksResponse_invariants (env : Env) (msg : BlocksRequestMessage)
    (pid : String) (r : BlocksResponseMessage)
    (h : r ∈ parseMessage env msg pid) :
    (r.ResponseCode = ResponseCode.moreBlocks → r.BlocksData ≠ []) ∧
    (r.ResponseCode = ResponseCode.synced →
      ∃ cert, r.LastCertificate = some cert ∧ cert.height = r.Height) := by
  unfold parseMessage at h
  by_cases c1 : (env.peerStatus pid).isUnknown = true
  · rw [if_pos c1] at h
    exact invariants_of_rejected _ _ r (by simpa using h)
  · rw [if_neg c1] at h
    by_cases c2 : (env.peerStatus pid).isKnown = false
    · rw [if_pos c2] at h
      exact invariants_of_rejected _ _ r (by simpa using h)
    · rw [if_neg c2] at h
      by_cases c3 : env.config.nodeNetwork = false ∧
          requestHeightRejected env.config.latestBlockInterval
            env.lastBlockHeight msg.From
      · rw [if_pos c3] at h
        exact invariants_of_rejected _ _ r (by simpa using h)
      · rw [if_neg c3] at h
        by_cases c4 : env.lastBlockHeight < msg.From
        · rw [if_pos c4] at h
          exact invariants_of_rejected _ _ r (by simpa using h)
        · rw [if_neg c4] at h
          by_cases c5 : env.config.latestBlockInterval < msg.Count
          · rw [if_pos c5] at h
            exact invariants_of_rejected _ _ r (by simpa using h)
          · rw [if_neg c5] at h
            rcases List.mem_append.mp h with hm | hm
            · obtain ⟨hh, bs, hbs, hr⟩ := serveLoop_mem_shape env
                msg.SessionID msg.Count msg.From r hm
              subst hr
              constructor
              · intro _
                simpa using hbs
              · intro hc
                simp [moreBlocksResponse, NewBlocksResponseMessage] at hc
            · by_cases c6 : env.lastBlockHeight ≤ msg.To
              · rw [if_pos c6] at hm
                have hr : r = syncedResponse env msg.SessionID := by
                  simpa using hm
                subst hr
                constructor
                · intro hc
                  simp [syncedResponse, NewBlocksResponseMessage] at hc
                · intro _
                  exact ⟨env.lastCertificate, rfl, rfl⟩
              · rw [if_neg c6] at hm
                have hr : r = noMoreBlocksResponse msg.SessionID := by
                  simpa using hm
                subst hr
                constructor
                · intro hc
                  simp [noMoreBlocksResponse, NewBlocksResponseMessage] at hc
                · intro hc
                  simp [noMoreBlocksResponse, NewBlocksResponseMessage] at hc

/-- Witness for C4 at a Synced response: the height-0 node answers a
(0, 0) request with the Synced response, which carries its certificate at
the response's reported height. -/
theorem blocksResponse_invariants_witness :
    syncedResponse envEmptyChain 3 ∈ parseMessage envEmptyChain ⟨3, 0, 0⟩ "p" ∧
    (((syncedResponse envEmptyChain 3).ResponseCode = ResponseCode.moreBlocks →
        (syncedResponse envEmptyChain 3).BlocksData ≠ []) ∧
      ((syncedResponse envEmptyChain 3).ResponseCode = ResponseCode.synced →
        ∃ cert, (syncedResponse envEmptyChain 3).LastCertificate = some cert ∧
          cert.height = (syncedResponse envEmptyChain 3).Height)) := by
  have hpm : parseMessage envEmptyChain ⟨3, 0, 0⟩ "p" =
      [syncedResponse envEmptyChain 3] := by
    rw [parseMessage_accepted _ _ _ (by decide)]
    dsimp only
    rw [serveLoop_eq_nil envEmptyChain 3 (by decide), if_pos (by decide)]
    rfl
  have hm : syncedResponse envEmptyChain 3 ∈
      parseMessage envEmptyChain ⟨3, 0, 0⟩ "p" := by
    rw [hpm]
    exact List.mem_singleton_self _
  exact ⟨hm, blocksResponse_invariants envEmptyChain ⟨3, 0, 0⟩ "p" _ hm⟩

/-- C5 (amended): For every BlocksRequest from a Known peer to a node not
configured as NodeNetwork, if the requested from lies below
local height - LatestBlockInterval, the handler responds with exactly one
Rejected response whose reason contains "request height is not acceptable"
(the code's wording; the claimed string "request height not acceptable"
does not occur in it). -/
theorem blocksRequest_heightWindow (env : Env) (msg : BlocksRequestMessage)
    (pid : String)
    (hk : (env.peerStatus pid).isKnown = true)
    (hn : env.config.nodeNetwork = false)
    (hw : msg.From < env.lastBlockHeight - env.config.latestBlockInterval) :
    parseMessage env msg pid =
      [NewBlocksResponseMessage ResponseCode.rejected
        ("the request height is not acceptable: " ++ Nat.repr msg.From)
        msg.SessionID 0 [] none] ∧
    containsSubstr "request height is not acceptable"
      ("the request height is not acceptable: " ++ Nat.repr msg.From) = true := by
  have hgt : env.config.latestBlockInterval < env.lastBlockHeight := by omega
  have hu : (env.peerStatus pid).isUnknown = false := by
    cases hst : env.peerStatus pid <;>
      simp [hst, Status.isKnown, Status.isUnknown] at hk ⊢
  constructor
  · unfold parseMessage
    rw [if_neg (by simp [hu]), if_neg (by simp [hk]), if_pos ⟨hn, hgt, hw⟩]
  · exact containsSubstr_append _ _ _ (by decide)

/-- Witness for C5 at the non-archival node at height 1000 with window 10
and a request for height 5. -/
theorem blocksRequest_heightWindow_witness :
    (envRejectDemo.peerStatus "w").isKnown = true ∧
    envRejectDemo.config.nodeNetwork = false ∧
    msgLowFrom.From <
      envRejectDemo.lastBlockHeight - envRejectDemo.config.latestBlockInterval ∧
    (parseMessage envRejectDemo msgLowFrom "w" =
        [NewBlocksResponseMessage ResponseCode.rejected
          ("the request height is not acceptable: " ++ Nat.repr msgLowFrom.From)
          msgLowFrom.SessionID 0 [] none] ∧
      containsSubstr "request height is not acceptable"
        ("the request height is not acceptable: " ++
          Nat.repr msgLowFrom.From) = true) :=
  ⟨by decide, by decide, by decide,
    blocksRequest_heightWindow envRejectDemo msgLowFrom "w" (by decide)
      (by decide) (by decide)⟩

/-- C5 counterexample: the reason the handler actually sends for an
out-of-window request does not contain the claimed string
"request height not acceptable". -/
theorem blocksRequest_heightWindow_reason_cex :
    parseMessage envRejectDemo msgLowFrom "peer2" =
      [NewBlocksResponseMessage ResponseCode.rejected
        "the request height is not acceptable: 5" 7 0 [] none] ∧
    (∀ r ∈ parseMessage envRejectDemo msgLowFrom "peer2",
      containsSubstr "request height not acceptable" r.Reason = false) :=
  ⟨by decide, by decide⟩

/-- C6 counterexample: on a node at height 5 serving heights 1..5, the
accepted request (from = 5, count = 1) is answered by a MoreBlocks response
carrying the tip block and only then by the Synced response — the Synced
response is not the response to the request without preceding MoreBlocks
responses. -/
theorem blocksRequest_fromAtTip_cex :
    Accepted envTip5 ⟨2, 5, 1⟩ "p" ∧
    (⟨2, 5, 1⟩ : BlocksRequestMessage).From = envTip5.lastBlockHeight ∧
    parseMessage envTip5 ⟨2, 5, 1⟩ "p" =
      [moreBlocksResponse 2 5 [5], syncedResponse envTip5 2] ∧
    (moreBlocksResponse 2 5 [5]).ResponseCode = ResponseCode.moreBlocks := by
  refine ⟨by decide, by decide, ?_, by decide⟩
  rw [parseMessage_accepted _ _ _ (by decide)]
  dsimp only
  rw [serveLoop_eq_single envTip5 2 (by decide) (by decide),
    if_pos (by decide)]
  have hc : blocksChunk envTip5 5 1 = [5] := by decide
  rw [hc]
  rfl

/-- C6 (amended): For every accepted BlocksRequest with from equal to the
node's last block height, on a node whose store serves exactly heights
1..tip, with count ≥ 1, BlockPerMessage ≥ 1, tip ≥ 1 and no uint32 overflow
in To(), the handler answers with exactly one MoreBlocks response carrying
the tip block, followed by the Synced response carrying the tip
certificate; the Synced response is the terminal response but is preceded
by that MoreBlocks response. -/
theorem blocksRequest_fromAtTip (env : Env) (msg : BlocksRequestMessage)
    (pid : String)
    (hacc : Accepted env msg pid)
    (hfrom : msg.From = env.lastBlockHeight)
    (hcnt : 1 ≤ msg.Count)
    (hbpm : 1 ≤ env.config.blockPerMessage)
    (htip : 1 ≤ env.lastBlockHeight)
    (hstore : ∀ h, (env.store h).isSome ↔ (1 ≤ h ∧ h ≤ env.lastBlockHeight))
    (hwrap : msg.From + msg.Count ≤ 4294967296) :
    ∃ b, env.store msg.From = some b ∧
      parseMessage env msg pid =
        [moreBlocksResponse msg.SessionID msg.From [b],
          syncedResponse env msg.SessionID] := by
  obtain ⟨b, hb⟩ : ∃ b, env.store msg.From = some b :=
    Option.isSome_iff_exists.mp
      ((hstore msg.From).mpr ⟨by omega, by omega⟩)
  have hnone : env.store (msg.From + 1) = none := by
    cases hs : env.store (msg.From + 1) with
    | none => rfl
    | some x =>
      have := (hstore (msg.From + 1)).mp (by rw [hs]; rfl)
      omega
  have hchunk : blocksChunk env msg.From msg.Count = [b] := by
    have hpos : 0 < blockToRead env msg.Count := by
      unfold blockToRead
      exact lt_min_iff.mpr ⟨by omega, by omega⟩
    obtain ⟨k, hk⟩ := Nat.exists_eq_succ_of_ne_zero (Nat.pos_iff_ne_zero.mp hpos)
    unfold blocksChunk
    rw [hk]
    unfold prepareBlocks
    rw [hb, prepareBlocks_store_none env (msg.From + 1) hnone k]
  have hloop : serveLoop env msg.SessionID msg.From msg.Count =
      [moreBlocksResponse msg.SessionID msg.From [b]] := by
    by_cases h1 : msg.Count - (blocksChunk env msg.From msg.Count).length = 0
    · rw [serveLoop_eq_single env msg.SessionID (by rw [hchunk]; simp) h1, hchunk]
    · rw [serveLoop_eq_cons env msg.SessionID (by rw [hchunk]; simp) h1, hchunk]
      have hnil : blocksChunk env (msg.From + 1) (msg.Count - 1) = [] := by
        unfold blocksChunk
        exact prepareBlocks_store_none env (msg.From + 1) hnone _
      rw [show (msg.From + ([b] : List Nat).length) = msg.From + 1 by simp,
        show (msg.Count - ([b] : List Nat).length) = msg.Count - 1 by simp,
        serveLoop_eq_nil env msg.SessionID hnil]
  have hTo : env.lastBlockHeight ≤ msg.To := by
    simp only [BlocksRequestMessage.To]
    omega
  rw [parseMessage_accepted _ _ _ hacc, hloop, if_pos hTo]
  exact ⟨b, hb, rfl⟩

/-- Witness for C6 (amended) at the height-5 node and the request
(from = 5, count = 2). -/
theorem blocksRequest_fromAtTip_witness :
    Accepted envTip5 ⟨8, 5, 2⟩ "p" ∧
    (⟨8, 5, 2⟩ : BlocksRequestMessage).From = envTip5.lastBlockHeight ∧
    1 ≤ (⟨8, 5, 2⟩ : BlocksRequestMessage).Count ∧
    1 ≤ envTip5.config.blockPerMessage ∧
    1 ≤ envTip5.lastBlockHeight ∧
    (∀ h, (envTip5.store h).isSome ↔ (1 ≤ h ∧ h ≤ envTip5.lastBlockHeight)) ∧
    (⟨8, 5, 2⟩ : BlocksRequestMessage).From +
      (⟨8, 5, 2⟩ : BlocksRequestMessage).Count ≤ 4294967296 ∧
    (∃ b, envTip5.store (⟨8, 5, 2⟩ : BlocksRequestMessage).From = some b ∧
      parseMessage envTip5 ⟨8, 5, 2⟩ "p" =
        [moreBlocksResponse 8 5 [b], syncedResponse envTip5 8]) := by
  have hstore : ∀ h, (envTip5.store h).isSome ↔
      (1 ≤ h ∧ h ≤ envTip5.lastBlockHeight) := by
    intro h
    show (if 1 ≤ h ∧ h ≤ 5 then some h else none).isSome ↔ (1 ≤ h ∧ h ≤ 5)
    by_cases hc : 1 ≤ h ∧ h ≤ 5 <;> simp [hc]
  exact ⟨by decide, by decide, by decide, by decide, by decide, hstore,
    by decide,
    blocksRequest_fromAtTip envTip5 ⟨8, 5, 2⟩ "p" (by decide) (by decide)
      (by decide) (by decide) (by decide) hstore (by decide)⟩

/-- C7 counterexample: on the height-0 node, the accepted request
(from = 0, count = 0) is answered by a Synced response, not a NoMoreBlocks
response: `To()` underflows to `2^32 - 1`, which is ≥ the local height. -/
theorem blocksRequest_zeroCount_cex :
    Accepted envEmptyChain ⟨3, 0, 0⟩ "c" ∧
    (⟨3, 0, 0⟩ : BlocksRequestMessage).Count = 0 ∧
    parseMessage envEmptyChain ⟨3, 0, 0⟩ "c" =
      [syncedResponse envEmptyChain 3] ∧
    (syncedResponse envEmptyChain 3).ResponseCode ≠
      ResponseCode.noMoreBlocks := by
  refine ⟨by decide, rfl, ?_, by decide⟩
  rw [parseMessage_accepted _ _ _ (by decide)]
  dsimp only
  rw [serveLoop_eq_nil envEmptyChain 3 (by decide), if_pos (by decide)]
  rfl

/-- C7 (amended): For every accepted BlocksRequest with count = 0 and
1 ≤ from ≤ 2^32, the server returns a NoMoreBlocks response and sends no
blocks. -/
theorem blocksRequest_zeroCount (env : Env) (msg : BlocksRequestMessage)
    (pid : String)
    (hacc : Accepted env msg pid) (hcnt : msg.Count = 0)
    (hfrom : 1 ≤ msg.From) (hbound : msg.From ≤ 4294967296) :
    parseMessage env msg pid = [noMoreBlocksResponse msg.SessionID] := by
  have h4 : msg.From ≤ env.lastBlockHeight := hacc.2.2.2.1
  have hchunk : blocksChunk env msg.From msg.Count = [] := by
    rw [hcnt]
    simp [blocksChunk, blockToRead, prepareBlocks]
  rw [parseMessage_accepted _ _ _ hacc,
    serveLoop_eq_nil env msg.SessionID hchunk,
    if_neg (by simp only [BlocksRequestMessage.To]; omega)]
  rfl

/-- Witness for C7 (amended) at the height-1 node and the request
(from = 1, count = 0). -/
theorem blocksRequest_zeroCount_witness :
    Accepted envHeight1 ⟨4, 1, 0⟩ "p" ∧
    (⟨4, 1, 0⟩ : BlocksRequestMessage).Count = 0 ∧
    1 ≤ (⟨4, 1, 0⟩ : BlocksRequestMessage).From ∧
    (⟨4, 1, 0⟩ : BlocksRequestMessage).From ≤ 4294967296 ∧
    parseMessage envHeight1 ⟨4, 1, 0⟩ "p" = [noMoreBlocksResponse 4] :=
  ⟨by decide, rfl, by decide, by decide,
    blocksRequest_zeroCount envHeight1 ⟨4, 1, 0⟩ "p" (by decide) rfl
      (by decide) (by decide)⟩

/-- C8: Processing any BlocksRequest leaves the server's synchronizer state
unchanged: with every facade call state-threaded through the handler, the
state after handling equals the state before; the only effects are the
responses returned. -/
theorem blocksRequest_frame (env : Env) (msg : BlocksRequestMessage)
    (pid : String) : (parseMessageS env msg pid).2 = env := by
  rw [parseMessageS_eq]

/-- A string whose second character is not the second character of the
height-window rejection reason is not that reason. -/
lemma reason_ne_window (s : String) (f : Nat)
    (hs : s.data[1]? ≠ some 'h') :
    s ≠ "the request height is not acceptable: " ++ Nat.repr f := by
  apply string_ne_of_data1
  rw [data1_append_left "the request height is not acceptable: " (Nat.repr f)
    'h' (by decide) (by decide)]
  exact hs

/-- C9: For every BlocksRequest handled by a node whose last block height is
at most LatestBlockInterval, the height-window check is skipped (its
condition is false and no response carries the height-window rejection
reason); moreover, under the guard the uint32 window subtraction agrees
with exact natural subtraction for all in-range values, so the guarded
subtraction never underflows. -/
theorem blocksRequest_windowGuard (env : Env) (msg : BlocksRequestMessage)
    (pid : String)
    (h : env.lastBlockHeight ≤ env.config.latestBlockInterval) :
    ¬ requestHeightRejected env.config.latestBlockInterval
        env.lastBlockHeight msg.From ∧
    (∀ r ∈ parseMessage env msg pid,
        r.Reason ≠ "the request height is not acceptable: " ++
          Nat.repr msg.From) ∧
    (∀ lbi ourH f : Nat, ourH < 4294967296 → lbi < 4294967296 →
        (requestHeightRejectedU32 lbi ourH f ↔
          requestHeightRejected lbi ourH f)) := by
  refine ⟨?_, ?_, ?_⟩
  · intro hcontra
    obtain ⟨hlt, _⟩ := hcontra
    omega
  · intro r hr
    unfold parseMessage at hr
    by_cases c1 : (env.peerStatus pid).isUnknown = true
    · rw [if_pos c1] at hr
      have he : r = NewBlocksResponseMessage ResponseCode.rejected
          ("unknown peer (" ++ pid ++ ")") msg.SessionID 0 [] none := by
        simpa using hr
      subst he
      show ("unknown peer (" ++ pid ++ ")") ≠ _
      have e0 : ("unknown peer (" ++ pid).data[1]? = some 'n' :=
        data1_append_left _ _ _ (by decide) (by decide)
      have e1 : (("unknown peer (" ++ pid) ++ ")").data[1]? = some 'n' :=
        data1_append_left _ _ _
          (lt_of_lt_of_le (by decide) (data_length_le_append _ _)) e0
      exact reason_ne_window _ _ (by rw [e1]; decide)
    · rw [if_neg c1] at hr
      by_cases c2 : (env.peerStatus pid).isKnown = false
      · rw [if_pos c2] at hr
        have he : r = NewBlocksResponseMessage ResponseCode.rejected
            ("not handshaked (" ++ (env.peerStatus pid).text ++ ")")
            msg.SessionID 0 [] none := by
          simpa using hr
        subst he
        show ("not handshaked (" ++ (env.peerStatus pid).text ++ ")") ≠ _
        have e0 : ("not handshaked (" ++ (env.peerStatus pid).text).data[1]? =
            some 'o' := data1_append_left _ _ _ (by decide) (by decide)
        have e1 : (("not handshaked (" ++ (env.peerStatus pid).text) ++
            ")").data[1]? = some 'o' :=
          data1_append_left _ _ _
            (lt_of_lt_of_le (by decide) (data_length_le_append _ _)) e0
        exact reason_ne_window _ _ (by rw [e1]; decide)
      · rw [if_neg c2] at hr
        by_cases c3 : env.config.nodeNetwork = false ∧
            requestHeightRejected env.config.latestBlockInterval
              env.lastBlockHeight msg.From
        · obtain ⟨hlt, _⟩ := c3.2
          omega
        · rw [if_neg c3] at hr
          by_cases c4 : env.lastBlockHeight < msg.From
          · rw [if_pos c4] at hr
            have he : r = NewBlocksResponseMessage ResponseCode.rejected
                ("don\x27t have requested blocks: " ++ Nat.repr msg.From)
                msg.SessionID 0 [] none := by
              simpa using hr
            subst he
            show ("don\x27t have requested blocks: " ++ Nat.repr msg.From) ≠ _
            exact reason_ne_window _ _ (by
              rw [data1_append_left "don\x27t have requested blocks: "
                (Nat.repr msg.From) 'o' (by decide) (by decide)]
              decide)
          · rw [if_neg c4] at hr
            by_cases c5 : env.config.latestBlockInterval < msg.Count
            · rw [if_pos c5] at hr
              have he : r = NewBlocksResponseMessage ResponseCode.rejected
                  ("too many blocks requested: " ++ Nat.repr msg.From ++ "-" ++
                    Nat.repr msg.Count) msg.SessionID 0 [] none := by
                simpa using hr
              subst he
              show ("too many blocks requested: " ++ Nat.repr msg.From ++ "-" ++
                Nat.repr msg.Count) ≠ _
              have e0 : ("too many blocks requested: " ++
                  Nat.repr msg.From).data[1]? = some 'o' :=
                data1_append_left _ _ _ (by decide) (by decide)
              have l1 : 1 < ("too many blocks requested: " ++
                  Nat.repr msg.From).data.length :=
                lt_of_lt_of_le (by decide) (data_length_le_append _ _)
              have e1 : (("too many blocks requested: " ++ Nat.repr msg.From) ++
                  "-").data[1]? = some 'o' := data1_append_left _ _ _ l1 e0
              have l2 : 1 < (("too many blocks requested: " ++
                  Nat.repr msg.From) ++ "-").data.length :=
                lt_of_lt_of_le l1 (data_length_le_append _ _)
              have e2 : ((("too many blocks requested: " ++ Nat.repr msg.From) ++
                  "-") ++ Nat.repr msg.Count).data[1]? = some 'o' :=
                data1_append_left _ _ _ l2 e1
              exact reason_ne_window _ _ (by rw [e2]; decide)
            · rw [if_neg c5] at hr
              rcases List.mem_append.mp hr with hm | hm
              · obtain ⟨hh, bs, hbs, hrr⟩ := serveLoop_mem_shape env
                  msg.SessionID msg.Count msg.From r hm
                subst hrr
                show ResponseCode.text ResponseCode.moreBlocks ≠ _
                exact reason_ne_window _ _ (by decide)
              · by_cases c6 : env.lastBlockHeight ≤ msg.To
                · rw [if_pos c6] at hm
                  have he : r = syncedResponse env msg.SessionID := by
                    simpa using hm
                  subst he
                  show ResponseCode.text ResponseCode.synced ≠ _
                  exact reason_ne_window _ _ (by decide)
                · rw [if_neg c6] at hm
                  have he : r = noMoreBlocksResponse msg.SessionID := by
                    simpa using hm
                  subst he
                  show ResponseCode.text ResponseCode.noMoreBlocks ≠ _
                  exact reason_ne_window _ _ (by decide)
  · intro lbi ourH f h1 h2
    unfold requestHeightRejectedU32 requestHeightRejected subU32
    constructor
    · rintro ⟨hlt, hsub⟩
      exact ⟨hlt, by omega⟩
    · rintro ⟨hlt, hsub⟩
      exact ⟨hlt, by omega⟩

/-- Witness for C9 at the height-0 node (height 0 ≤ window 720). -/
theorem blocksRequest_windowGuard_witness :
    envEmptyChain.lastBlockHeight ≤ envEmptyChain.config.latestBlockInterval ∧
    ¬ requestHeightRejected envEmptyChain.config.latestBlockInterval
        envEmptyChain.lastBlockHeight (⟨1, 5, 1⟩ : BlocksRequestMessage).From :=
  ⟨by decide,
    (blocksRequest_windowGuard envEmptyChain ⟨1, 5, 1⟩ "p" (by decide)).1⟩

/-- C10: Every response the blocks-request handler emits for a given
request — Rejected, MoreBlocks, Synced, or NoMoreBlocks — carries the
session id of that request unchanged. -/
theorem blocksRequest_sessionID_preserved (env : Env)
    (msg : BlocksRequestMessage) (pid : String) (r : BlocksResponseMessage)
    (h : r ∈ parseMessage env msg pid) : r.SessionID = msg.SessionID := by
  unfold parseMessage at h
  by_cases c1 : (env.peerStatus pid).isUnknown = true
  · rw [if_pos c1] at h
    have he : r = NewBlocksResponseMessage ResponseCode.rejected
        ("unknown peer (" ++ pid ++ ")") msg.SessionID 0 [] none := by
      simpa using h
    subst he
    rfl
  · rw [if_neg c1] at h
    by_cases c2 : (env.peerStatus pid).isKnown = false
    · rw [if_pos c2] at h
      have he : r = NewBlocksResponseMessage ResponseCode.rejected
          ("not handshaked (" ++ (env.peerStatus pid).text ++ ")")
          msg.SessionID 0 [] none := by
        simpa using h
      subst he
      rfl
    · rw [if_neg c2] at h
      by_cases c3 : env.config.nodeNetwork = false ∧
          requestHeightRejected env.config.latestBlockInterval
            env.lastBlockHeight msg.From
      · rw [if_pos c3] at h
        have he : r = NewBlocksResponseMessage ResponseCode.rejected
            ("the request height is not acceptable: " ++ Nat.repr msg.From)
            msg.SessionID 0 [] none := by
          simpa using h
        subst he
        rfl
      · rw [if_neg c3] at h
        by_cases c4 : env.lastBlockHeight < msg.From
        · rw [if_pos c4] at h
          have he : r = NewBlocksResponseMessage ResponseCode.rejected
              ("don\x27t have requested blocks: " ++ Nat.repr msg.From)
              msg.SessionID 0 [] none := by
            simpa using h
          subst he
          rfl
        · rw [if_neg c4] at h
          by_cases c5 : env.config.latestBlockInterval < msg.Count
          · rw [if_pos c5] at h
            have he : r = NewBlocksResponseMessage ResponseCode.rejected
                ("too many blocks requested: " ++ Nat.repr msg.From ++ "-" ++
                  Nat.repr msg.Count) msg.SessionID 0 [] none := by
              simpa using h
            subst he
            rfl
          · rw [if_neg c5] at h
            rcases List.mem_append.mp h with hm | hm
            · obtain ⟨hh, bs, hbs, hrr⟩ := serveLoop_mem_shape env
                msg.SessionID msg.Count msg.From r hm
              subst hrr
              rfl
            · by_cases c6 : env.lastBlockHeight ≤ msg.To
              · rw [if_pos c6] at hm
                have he : r = syncedResponse env msg.SessionID := by
                  simpa using hm
                subst he
                rfl
              · rw [if_neg c6] at hm
                have he : r = noMoreBlocksResponse msg.SessionID := by
                  simpa using hm
                subst he
                rfl

/-- Witness for C10 at the "unknown peer" rejection of session 1. -/
theorem blocksRequest_sessionID_preserved_witness :
    NewBlocksResponseMessage ResponseCode.rejected "unknown peer (px)"
      1 0 [] none ∈ parseMessage envUnknownPeer msgZero "px" ∧
    (NewBlocksResponseMessage ResponseCode.rejected "unknown peer (px)"
      1 0 [] none).SessionID = msgZero.SessionID := by
  have hm : NewBlocksResponseMessage ResponseCode.rejected "unknown peer (px)"
      1 0 [] none ∈ parseMessage envUnknownPeer msgZero "px" := by decide
  exact ⟨hm, blocksRequest_sessionID_preserved envUnknownPeer msgZero "px" _ hm⟩

end PactusSync
